import Mathlib

/-!
Verification of the orchestration layer in `src/main.py` of the ai-hedge-fund
repository: workflow-graph assembly (`create_workflow`), the hedge-fund runner
(`run_hedge_fund`, `parse_hedge_fund_response`), and the `__main__` block
(config loading, date defaulting, per-ticker loop).  The Python code is
shallowly embedded: fallible operations return `Except PyErr`, Python dicts
become association lists, and the external collaborators (the langgraph
`StateGraph` builder, `json.loads`, `dateutil.relativedelta`) are modelled by
their actual behaviour at the operations the file uses.
-/

namespace HedgeFund

/-- Python exceptions that the embedded code can raise.  `keyError` is a dict
subscript miss, `valueError` models langgraph's builder errors (and the date
validation errors), `attributeError` models calling a method such as `.get` on
a value that lacks it (e.g. `None`), `nameError` is an unbound global name and
`indexError` an out-of-range list subscript. -/
inductive PyErr where
  | keyError (key : String)
  | valueError (msg : String)
  | attributeError (msg : String)
  | nameError (name : String)
  | indexError (msg : String)
deriving DecidableEq, Repr

/-- The node callables wired into the workflow.  Their bodies live in external
agent modules (`agents.*`); only their identity matters for graph assembly, so
they are an enumeration.  `startAgent` is the local `start` function of
`main.py` (the identity on state). -/
inductive AgentFn where
  | startAgent
  | technicalAnalystAgent
  | fundamentalsAgent
  | sentimentAgent
  | valuationAgent
  | riskManagementAgent
  | portfolioManagementAgent
deriving DecidableEq, Repr

/-- langgraph's reserved virtual start node name. -/
def START : String := "__start__"

/-- langgraph's reserved virtual terminal node name (`END` in the source). -/
def END : String := "__end__"

/-- The langgraph `StateGraph` builder as used by `create_workflow`: a list of
named nodes in registration order, a list of edges with set semantics
(duplicate insertions are ignored, matching langgraph's `set` of edges), and
the entry point (langgraph records it as an edge from the reserved `START`
node; modelled as a field). -/
structure StateGraph where
  nodes : List (String × AgentFn)
  edges : List (String × String)
  entryPoint : Option String
deriving DecidableEq, Repr

/-- The names of the registered nodes, in registration order. -/
def StateGraph.nodeNames (g : StateGraph) : List String := g.nodes.map Prod.fst

/-- langgraph `StateGraph.add_node`: registering a name that is already
present raises `ValueError("Node ... already present.")`, and the reserved
names `START`/`END` are refused.  (The additional langgraph check that a node
name does not collide with a state key is never triggered by `main.py` and is
not modelled.) -/
def StateGraph.add_node (g : StateGraph) (name : String) (fn : AgentFn) :
    Except PyErr StateGraph :=
  if name ∈ g.nodeNames then
    .error (.valueError ("Node " ++ name ++ " already present"))
  else if name = START ∨ name = END then
    .error (.valueError ("Node " ++ name ++ " is reserved"))
  else
    .ok { g with nodes := g.nodes ++ [(name, fn)] }

/-- langgraph `StateGraph.add_edge`: `END` cannot start an edge, `START`
cannot end one, and edges live in a set (adding an existing edge is a
no-op). -/
def StateGraph.add_edge (g : StateGraph) (s t : String) :
    Except PyErr StateGraph :=
  if s = END then .error (.valueError "END cannot be a start node")
  else if t = START then .error (.valueError "START cannot be an end node")
  else .ok { g with edges := if (s, t) ∈ g.edges then g.edges else g.edges ++ [(s, t)] }

/-- langgraph `StateGraph.set_entry_point`. -/
def StateGraph.set_entry_point (g : StateGraph) (name : String) : StateGraph :=
  { g with entryPoint := some name }

/-- The compiled, runnable form of a workflow (`workflow.compile()`).
langgraph's compile-time validation is not modelled; no claim depends on it. -/
structure CompiledGraph where
  graph : StateGraph
deriving DecidableEq, Repr

/-- `workflow.compile()`. -/
def StateGraph.compile (g : StateGraph) : CompiledGraph := ⟨g⟩

/-- The static registry `analyst_nodes` of `create_workflow` (lines 97-102 of
`main.py`): analyst key to (node name, node callable). -/
def analyst_nodes : List (String × (String × AgentFn)) :=
  [("technical_analyst", ("technical_analyst_agent", .technicalAnalystAgent)),
   ("fundamentals_analyst", ("fundamentals_agent", .fundamentalsAgent)),
   ("sentiment_analyst", ("sentiment_agent", .sentimentAgent)),
   ("valuation_analyst", ("valuation_agent", .valuationAgent))]

/-- The four known analyst keys (the domain of `analyst_nodes`); also the
default selection used when `selected_analysts` is `None`. -/
def analystKeys : List String :=
  ["technical_analyst", "fundamentals_analyst", "sentiment_analyst", "valuation_analyst"]

/-- The node name registered for an analyst key (`""` for unknown keys, which
never reach a node registration because the registry lookup raises first). -/
def nodeNameOf (k : String) : String :=
  ((analyst_nodes.lookup k).map Prod.fst).getD ""

/-- The node callable registered for an analyst key. -/
def agentFnOf (k : String) : AgentFn :=
  ((analyst_nodes.lookup k).map Prod.snd).getD .startAgent

/-- The first loop of `create_workflow` (lines 104-108): for each selected key
look the key up in the registry (a Python dict subscript, so an unknown key
raises `KeyError`), register the analyst node and wire `start_node` to it. -/
def addAnalystNodes : List String → StateGraph → Except PyErr StateGraph
  | [], g => .ok g
  | k :: rest, g =>
    match analyst_nodes.lookup k with
    | none => .error (.keyError k)
    | some (nodeName, nodeFn) => do
      let g ← g.add_node nodeName nodeFn
      let g ← g.add_edge "start_node" nodeName
      addAnalystNodes rest g

/-- The second loop of `create_workflow` (lines 115-117): wire each selected
analyst into `risk_management_agent`. -/
def addRiskEdges : List String → StateGraph → Except PyErr StateGraph
  | [], g => .ok g
  | k :: rest, g =>
    match analyst_nodes.lookup k with
    | none => .error (.keyError k)
    | some (nodeName, _) => do
      let g ← g.add_edge nodeName "risk_management_agent"
      addRiskEdges rest g

/-- `create_workflow(selected_analysts=None)` (lines 87-123 of `main.py`):
build a `StateGraph`, add `start_node`, default a `None` selection to all four
analysts, add one node and a `start_node` edge per selected key, always add
the risk- and portfolio-management nodes, wire every selected analyst into
risk management, wire risk management into portfolio management and portfolio
management into `END`, and set `start_node` as the entry point. -/
def create_workflow (selected_analysts : Option (List String)) :
    Except PyErr StateGraph := do
  let workflow : StateGraph := { nodes := [], edges := [], entryPoint := none }
  let workflow ← workflow.add_node "start_node" .startAgent
  let sel := selected_analysts.getD analystKeys
  let workflow ← addAnalystNodes sel workflow
  let workflow ← workflow.add_node "risk_management_agent" .riskManagementAgent
  let workflow ← workflow.add_node "portfolio_management_agent" .portfolioManagementAgent
  let workflow ← addRiskEdges sel workflow
  let workflow ← workflow.add_edge "risk_management_agent" "portfolio_management_agent"
  let workflow ← workflow.add_edge "portfolio_management_agent" END
  pure (workflow.set_entry_point "start_node")

/-- The `__main__` fallback for the interactive analyst prompt (lines
183-187): an empty choice list is replaced by `None` (all analysts) before
`create_workflow` is called. -/
def cli_selected_analysts (choices : List String) : Option (List String) :=
  if choices.isEmpty then none else some choices

/-- The node entry registered for an analyst key. -/
def analystEntry (k : String) : String × AgentFn := (nodeNameOf k, agentFnOf k)

/-- The edge from `start_node` into an analyst's node. -/
def startEdgeOf (k : String) : String × String := ("start_node", nodeNameOf k)

/-- The edge from an analyst's node into risk management. -/
def riskEdgeOf (k : String) : String × String := (nodeNameOf k, "risk_management_agent")

/-- The workflow graph the spec describes for a selection, stated from the
spec's words (section 3, WorkflowGraph): nodes are `start` plus one node per
selected analyst plus risk and portfolio management; edges are `start` to each
selected analyst, each selected analyst to risk management, risk management to
portfolio management, and portfolio management to the terminal; `start` is the
entry point.  Used to compare `create_workflow` against the spec. -/
def specWorkflowGraph (sel : List String) : StateGraph :=
  { nodes := ("start_node", .startAgent) :: sel.map analystEntry ++
      [("risk_management_agent", .riskManagementAgent),
       ("portfolio_management_agent", .portfolioManagementAgent)],
    edges := sel.map startEdgeOf ++ sel.map riskEdgeOf ++
      [("risk_management_agent", "portfolio_management_agent"),
       ("portfolio_management_agent", END)],
    entryPoint := some "start_node" }

/-- A YAML value as produced by `yaml.safe_load` (mirroring the Python values:
`None`, booleans, numbers, strings, lists and string-keyed dicts; Python's
int/float distinction is immaterial here since the code only passes the
numbers through, so both are carried as rationals). -/
inductive Yaml where
  | null
  | bool (b : Bool)
  | num (q : Rat)
  | str (s : String)
  | seq (xs : List Yaml)
  | map (kvs : List (String × Yaml))

/-- Python `value.get(key, default)`: defined on dicts (returning the stored
value, or the default when the key is absent); on any non-dict value — `None`
from a null YAML entry, a number, a string, a list — the attribute lookup
itself raises `AttributeError`. -/
def yamlGet (v : Yaml) (key : String) (dflt : Yaml) : Except PyErr Yaml :=
  match v with
  | .map kvs => .ok ((kvs.lookup key).getD dflt)
  | _ => .error (.attributeError ("get " ++ key))

/-- `config.get('portfolio', {}).get('cash', 100000.0)` (lines 154-156 of
`main.py`): the cash balance stored in `base_portfolio`. -/
def resolve_base_cash (config : Yaml) : Except PyErr Yaml := do
  let p ← yamlGet config "portfolio" (.map [])
  yamlGet p "cash" (.num 100000)

/-- `positions = config.get('positions', {})` (line 152): the positions dict
of the config file. -/
def resolve_positions (config : Yaml) : Except PyErr (List (String × Yaml)) := do
  let p ← yamlGet config "positions" (.map [])
  match p with
  | .map kvs => .ok kvs
  | _ => .error (.attributeError "keys")

/-- `tickers = list(positions.keys())` (line 153). -/
def resolve_tickers (config : Yaml) : Except PyErr (List String) :=
  (resolve_positions config).map (fun kvs => kvs.map Prod.fst)

/-- The per-ticker portfolio dict: the copied base cash plus the resolved
stock count. -/
structure Portfolio where
  cash : Yaml
  stock : Yaml

/-- Lines 222-223 of `main.py`: `portfolio = base_portfolio.copy();
portfolio["stock"] = positions[ticker].get("stock", 0)`.  The `positions
[ticker]` subscript raises `KeyError` for an unknown ticker, and `.get` raises
`AttributeError` when the position entry is not a dict (e.g. a YAML null).
This runs before the per-ticker `try`. -/
def build_ticker_portfolio (base_cash : Yaml) (positions : List (String × Yaml))
    (ticker : String) : Except PyErr Portfolio := do
  let pos ← match positions.lookup ticker with
    | some v => Except.ok v
    | none => Except.error (.keyError ticker)
  let stock ← yamlGet pos "stock" (.num 0)
  Except.ok { cash := base_cash, stock := stock }

/-- An execution path of a workflow graph: a node sequence that begins at the
graph's entry point and follows registered edges. -/
def ExecPath (g : StateGraph) (p : List String) : Prop :=
  p.head? = g.entryPoint ∧
  ∀ i, i + 1 < p.length → (p.getD i "", p.getD (i + 1) "") ∈ g.edges

/-- Risk management strictly precedes portfolio management on every execution
path of the graph. -/
def RiskPrecedesPortfolio (g : StateGraph) : Prop :=
  ∀ p, ExecPath g p → ∀ j, j < p.length →
    p.getD j "" = "portfolio_management_agent" →
    ∃ i, i < j ∧ p.getD i "" = "risk_management_agent"

/-- A JSON value as produced by Python's `json.loads`: objects, arrays,
strings, numbers (carried as a decimal mantissa and a power-of-ten exponent,
covering both ints and floats), booleans, `null`, and the non-standard
`NaN` / `Infinity` / `-Infinity` constants that Python accepts by default. -/
inductive Json where
  | null
  | bool (b : Bool)
  | num (mantissa : Int) (exp10 : Int)
  | nan
  | inf (neg : Bool)
  | str (s : String)
  | arr (elements : List Json)
  | obj (members : List (String × Json))

/-- The JSON whitespace characters. -/
def jsonWs (c : Char) : Bool := c == ' ' || c == '\t' || c == '\n' || c == '\r'

/-- Drop leading JSON whitespace. -/
def skipWs : List Char → List Char
  | [] => []
  | c :: cs => if jsonWs c then skipWs cs else c :: cs

/-- Consume an exact literal, returning the remaining input. -/
def matchLit : List Char → List Char → Option (List Char)
  | [], cs => some cs
  | _ :: _, [] => none
  | l :: ls, c :: cs => if c == l then matchLit ls cs else none

/-- The value of a decimal digit string. -/
def digitsVal (ds : List Char) : Nat :=
  ds.foldl (fun a c => a * 10 + (c.toNat - 48)) 0

/-- Split off the leading run of decimal digits. -/
def spanDigits (cs : List Char) : List Char × List Char :=
  (cs.takeWhile Char.isDigit, cs.dropWhile Char.isDigit)

/-- The value of a hexadecimal digit. -/
def hexVal (c : Char) : Option Nat :=
  if c.isDigit then some (c.toNat - 48)
  else if 97 ≤ c.toNat && c.toNat ≤ 102 then some (c.toNat - 87)
  else if 65 ≤ c.toNat && c.toNat ≤ 70 then some (c.toNat - 55)
  else none

/-- Four hex digits of a `\u` escape. -/
def parseHex4 : List Char → Option (Nat × List Char)
  | a :: b :: c :: d :: rest => do
    let va ← hexVal a
    let vb ← hexVal b
    let vc ← hexVal c
    let vd ← hexVal d
    some (((va * 16 + vb) * 16 + vc) * 16 + vd, rest)
  | _ => none

/-- The body of a JSON string after the opening quote: plain characters
(raw control characters are rejected, as in Python's strict mode) and the
backslash escapes.  A lone `\uXXXX` escape is mapped through `Char.ofNat`
(surrogate-pair recombination is not modelled). -/
def parseStrBody : Nat → List Char → List Char → Option (String × List Char)
  | 0, _, _ => none
  | fuel + 1, acc, cs =>
    match cs with
    | [] => none
    | '"' :: rest => some (⟨acc.reverse⟩, rest)
    | '\\' :: rest =>
      match rest with
      | [] => none
      | e :: rest2 =>
        if e == '"' then parseStrBody fuel ('"' :: acc) rest2
        else if e == '\\' then parseStrBody fuel ('\\' :: acc) rest2
        else if e == '/' then parseStrBody fuel ('/' :: acc) rest2
        else if e == 'b' then parseStrBody fuel (Char.ofNat 8 :: acc) rest2
        else if e == 'f' then parseStrBody fuel (Char.ofNat 12 :: acc) rest2
        else if e == 'n' then parseStrBody fuel ('\n' :: acc) rest2
        else if e == 'r' then parseStrBody fuel ('\r' :: acc) rest2
        else if e == 't' then parseStrBody fuel ('\t' :: acc) rest2
        else if e == 'u' then
          match parseHex4 rest2 with
          | some (v, rest3) => parseStrBody fuel (Char.ofNat v :: acc) rest3
          | none => none
        else none
    | c :: rest =>
      if c.toNat < 32 then none else parseStrBody fuel (c :: acc) rest

/-- The fractional part of a JSON number: either absent, or a dot followed by
at least one digit. -/
def parseFracPart : List Char → Option (List Char × List Char)
  | '.' :: r =>
    let (ds, rest) := spanDigits r
    if ds.isEmpty then none else some (ds, rest)
  | cs => some ([], cs)

/-- The digits of an exponent after `e`/`E` and an optional sign. -/
def parseExpPart (cs : List Char) : Option (Int × List Char) :=
  let (sgn, cs2) : Int × List Char :=
    match cs with
    | '+' :: r => (1, r)
    | '-' :: r => (-1, r)
    | _ => (1, cs)
  let (ds, rest) := spanDigits cs2
  if ds.isEmpty then none else some (sgn * (digitsVal ds : Int), rest)

/-- An optional exponent part. -/
def parseExpOpt : List Char → Option (Int × List Char)
  | c :: r => if c == 'e' || c == 'E' then parseExpPart r else some (0, c :: r)
  | [] => some (0, [])

/-- An unsigned JSON numeric literal: an integer part with no leading zeros,
then optional fraction and exponent. -/
def parseUnsigned (cs : List Char) : Option (Json × List Char) :=
  let (ids, rest) := spanDigits cs
  if ids.isEmpty then none
  else if 1 < ids.length && ids.headD '0' == '0' then none
  else
    match parseFracPart rest with
    | none => none
    | some (fds, rest2) =>
      match parseExpOpt rest2 with
      | none => none
      | some (e, rest3) =>
        some (.num (digitsVal (ids ++ fds) : Int) (e - (fds.length : Int)), rest3)

/-- Negate a numeric JSON value. -/
def negNum : Json → Json
  | .num m e => .num (-m) e
  | j => j

/-- A JSON number token, handling the leading minus sign and Python's
`-Infinity`. -/
def parseNumber (cs : List Char) : Option (Json × List Char) :=
  match cs with
  | '-' :: rest =>
    match matchLit "Infinity".toList rest with
    | some r => some (.inf true, r)
    | none =>
      match parseUnsigned rest with
      | some (j, r) => some (negNum j, r)
      | none => none
  | _ => parseUnsigned cs

mutual

/-- A JSON value: leading whitespace, then a literal, string, number, array
or object.  The fuel argument only bounds recursion depth; `jsonLoads` supplies
more fuel than any input can consume. -/
def parseValue : Nat → List Char → Option (Json × List Char)
  | 0, _ => none
  | fuel + 1, cs =>
    match skipWs cs with
    | [] => none
    | c :: rest =>
      if c == 'n' then (matchLit "null".toList (c :: rest)).map (fun r => (.null, r))
      else if c == 't' then (matchLit "true".toList (c :: rest)).map (fun r => (.bool true, r))
      else if c == 'f' then (matchLit "false".toList (c :: rest)).map (fun r => (.bool false, r))
      else if c == 'N' then (matchLit "NaN".toList (c :: rest)).map (fun r => (.nan, r))
      else if c == 'I' then (matchLit "Infinity".toList (c :: rest)).map (fun r => (.inf false, r))
      else if c == '"' then (parseStrBody (rest.length + 1) [] rest).map (fun p => (.str p.1, p.2))
      else if c == '[' then parseArrayRest fuel (skipWs rest)
      else if c == '{' then parseObjRest fuel (skipWs rest)
      else parseNumber (c :: rest)

/-- The rest of an array after `[` and whitespace. -/
def parseArrayRest : Nat → List Char → Option (Json × List Char)
  | 0, _ => none
  | fuel + 1, cs =>
    match cs with
    | ']' :: rest => some (.arr [], rest)
    | _ =>
      match parseElems fuel cs with
      | some (vs, rest) => some (.arr vs, rest)
      | none => none

/-- One or more comma-separated array elements followed by `]`. -/
def parseElems : Nat → List Char → Option (List Json × List Char)
  | 0, _ => none
  | fuel + 1, cs =>
    match parseValue fuel cs with
    | none => none
    | some (v, rest) =>
      match skipWs rest with
      | ',' :: rest2 =>
        match parseElems fuel rest2 with
        | some (vs, rest3) => some (v :: vs, rest3)
        | none => none
      | ']' :: rest2 => some ([v], rest2)
      | _ => none

/-- The rest of an object after the opening brace and whitespace. -/
def parseObjRest : Nat → List Char → Option (Json × List Char)
  | 0, _ => none
  | fuel + 1, cs =>
    match cs with
    | '}' :: rest => some (.obj [], rest)
    | _ =>
      match parseMembers fuel cs with
      | some (ms, rest) => some (.obj ms, rest)
      | none => none

/-- One or more comma-separated `"key": value` members followed by the
closing brace. -/
def parseMembers : Nat → List Char → Option (List (String × Json) × List Char)
  | 0, _ => none
  | fuel + 1, cs =>
    match skipWs cs with
    | '"' :: rest =>
      match parseStrBody (rest.length + 1) [] rest with
      | none => none
      | some (key, rest2) =>
        match skipWs rest2 with
        | ':' :: rest3 =>
          match parseValue fuel rest3 with
          | none => none
          | some (v, rest4) =>
            match skipWs rest4 with
            | ',' :: rest5 =>
              match parseMembers fuel rest5 with
              | some (ms, rest6) => some ((key, v) :: ms, rest6)
              | none => none
            | '}' :: rest5 => some ([(key, v)], rest5)
            | _ => none
        | _ => none
    | _ => none

end

/-- Python `json.loads`: parse one JSON value and require only whitespace to
remain.  The fuel `4 * length + 8` exceeds what any input can consume, since
every recursive step first consumes input characters. -/
def jsonLoads (s : String) : Option Json :=
  match parseValue (4 * s.length + 8) s.toList with
  | some (v, rest) => if (skipWs rest).isEmpty then some v else none
  | none => none

/-- `parse_hedge_fund_response` (lines 33-39 of `main.py`): `json.loads`
wrapped in a bare `try`/`except` that prints the error and returns `None`, so
it is total and yields `None` on any unparseable input. -/
def parse_hedge_fund_response (response : String) : Option Json :=
  jsonLoads response

/-- A conversation message; only its `content` participates here. -/
structure ChatMessage where
  content : String

/-- The `data` portion of the shared agent state. -/
structure AgentStateData where
  ticker : String
  portfolio : Portfolio
  start_date : String
  end_date : String
  analyst_signals : List (String × Json)

/-- The `metadata` portion of the shared agent state. -/
structure RunMetadata where
  show_reasoning : Bool

/-- The shared state threaded through the graph (`AgentState` of
`graph.state`): messages, data, metadata. -/
structure AgentState where
  messages : List ChatMessage
  data : AgentStateData
  metadata : RunMetadata

/-- The value returned by `run_hedge_fund`: the parsed decision (or `None`)
and the accumulated analyst signals. -/
structure HedgeFundResult where
  decision : Option Json
  analyst_signals : List (String × Json)

/-- Lines 76-79 of `main.py`: read the last message of the final state
(`final_state["messages"][-1]` raises `IndexError` on an empty list, outside
any `try`), parse it as the decision, and return it with the accumulated
`analyst_signals`. -/
def hedge_fund_output (final_state : AgentState) : Except PyErr HedgeFundResult :=
  match final_state.messages.getLast? with
  | none => .error (.indexError "list index out of range")
  | some m =>
    .ok { decision := parse_hedge_fund_response m.content,
          analyst_signals := final_state.data.analyst_signals }

/-- The module-scope binding of the name `app` as seen by an importer of
`main.py`: the line `app = None` is commented out (lines 125-126) and `app` is
assigned only inside the `if __name__ == "__main__"` block, so at module scope
the name is unbound. -/
def module_app_binding : Option CompiledGraph := none

/-- `run_hedge_fund` (lines 42-79 of `main.py`).  The external graph-execution
engine is the `invoke` parameter; `appBinding` is the value of the global name
`app` at call time (`none` = unbound, so the `agent = app` branch raises
`NameError`).  With a customized selection the workflow is rebuilt and
compiled; the graph is invoked on a fresh seeded state and the final state's
last message is parsed into the result. -/
def run_hedge_fund (invoke : CompiledGraph → AgentState → Except PyErr AgentState)
    (appBinding : Option CompiledGraph) (ticker start_date end_date : String)
    (portfolio : Portfolio) (show_reasoning : Bool)
    (selected_analysts : Option (List String)) : Except PyErr HedgeFundResult := do
  let agent ← match selected_analysts with
    | some sel => (create_workflow (some sel)).map StateGraph.compile
    | none =>
      match appBinding with
      | some a => Except.ok a
      | none => Except.error (.nameError "app")
  let final_state ← invoke agent
    { messages := [{ content := "Make a trading decision based on the provided data." }],
      data := { ticker := ticker, portfolio := portfolio, start_date := start_date,
                end_date := end_date, analyst_signals := [] },
      metadata := { show_reasoning := show_reasoning } }
  hedge_fund_output final_state

/-- One entry of the per-ticker output: the ticker and either its printed
result or the exception caught and printed at the per-ticker boundary. -/
structure TickerReport where
  ticker : String
  outcome : Except PyErr HedgeFundResult

/-- The outcome of the `__main__` ticker loop: the reports produced before any
uncaught exception, and the uncaught exception (if one aborted the loop). -/
structure RunLog where
  reports : List TickerReport
  aborted : Option PyErr

/-- The `__main__` per-ticker loop (lines 217-238): for each ticker, build its
portfolio from `base_portfolio` and `positions` (outside the `try`, so a
failure there aborts the whole loop), then run the hedge fund inside
`try`/`except` so any exception from the run is caught, printed and recorded,
and the loop continues.  `runOne` stands for the
`run_hedge_fund`/`print_trading_output` body of the `try`. -/
def process_tickers (base_cash : Yaml) (positions : List (String × Yaml))
    (runOne : String → Portfolio → Except PyErr HedgeFundResult) :
    List String → RunLog
  | [] => { reports := [], aborted := none }
  | t :: rest =>
    match build_ticker_portfolio base_cash positions t with
    | .error e => { reports := [], aborted := some e }
    | .ok pf =>
      let log := process_tickers base_cash positions runOne rest
      { reports := { ticker := t, outcome := runOne t pf } :: log.reports,
        aborted := log.aborted }

/-- A calendar date (proleptic Gregorian, as used by Python `datetime`). -/
structure Date where
  year : Nat
  month : Nat
  day : Nat
deriving DecidableEq, Repr

/-- Gregorian leap years, as in Python's `calendar`. -/
def isLeapYear (y : Nat) : Bool :=
  y % 4 == 0 && (y % 100 != 0 || y % 400 == 0)

/-- The number of days in a month (`calendar.monthrange(y, m)[1]`). -/
def daysInMonth (y m : Nat) : Nat :=
  if m = 2 then (if isLeapYear y then 29 else 28)
  else if m = 4 ∨ m = 6 ∨ m = 9 ∨ m = 11 then 30
  else 31

/-- A well-formed `datetime` date. -/
def ValidDate (d : Date) : Prop :=
  1 ≤ d.month ∧ d.month ≤ 12 ∧ 1 ≤ d.day ∧ d.day ≤ daysInMonth d.year d.month

instance (d : Date) : Decidable (ValidDate d) := by
  unfold ValidDate
  exact inferInstance

/-- `d - relativedelta(months=n)` of `dateutil`: subtract from the linear
month index (borrowing years) and clamp the day to the length of the resulting
month.  Stated over `Nat`; valid whenever the resulting month index is
non-negative (always the case here, where `n = 3` and years are at least
`datetime.MINYEAR = 1`). -/
def minusMonths (d : Date) (n : Nat) : Date :=
  let t := d.year * 12 + (d.month - 1) - n
  let y := t / 12
  let m := t % 12 + 1
  ⟨y, m, min d.day (daysInMonth y m)⟩

/-- Line 212 of `main.py`: the defaulted start date is
`end_date_obj - relativedelta(months=3)`. -/
def resolved_start_date (end_date_obj : Date) : Date :=
  minusMonths end_date_obj 3

/-- A natural number zero-padded to two digits (`strftime` field). -/
def pad2 (n : Nat) : String :=
  if n < 10 then "0" ++ toString n else toString n

/-- A natural number zero-padded to four digits (`strftime` year field). -/
def pad4 (n : Nat) : String :=
  if n < 10 then "000" ++ toString n
  else if n < 100 then "00" ++ toString n
  else if n < 1000 then "0" ++ toString n
  else toString n

/-- `date.strftime("%Y-%m-%d")`. -/
def strftime_ymd (d : Date) : String :=
  pad4 d.year ++ "-" ++ pad2 d.month ++ "-" ++ pad2 d.day

/-! ### Facts about the analyst registry -/

theorem lookup_eq_of_mem :
    ∀ k ∈ analystKeys, analyst_nodes.lookup k = some (nodeNameOf k, agentFnOf k) := by
  decide

theorem lookup_eq_none_of_not_mem (k : String) (hk : k ∉ analystKeys) :
    analyst_nodes.lookup k = none := by
  simp [analystKeys, List.mem_cons, not_or] at hk
  obtain ⟨h1, h2, h3, h4⟩ := hk
  have b1 : (k == "technical_analyst") = false := beq_eq_false_iff_ne.mpr h1
  have b2 : (k == "fundamentals_analyst") = false := beq_eq_false_iff_ne.mpr h2
  have b3 : (k == "sentiment_analyst") = false := beq_eq_false_iff_ne.mpr h3
  have b4 : (k == "valuation_analyst") = false := beq_eq_false_iff_ne.mpr h4
  simp [analyst_nodes, List.lookup, b1, b2, b3, b4]

theorem exceptBind_ok {α β : Type} (a : α) (f : α → Except PyErr β) :
    (Except.ok a >>= f : Except PyErr β) = f a := rfl

theorem exceptBind_err {α β : Type} (e : PyErr) (f : α → Except PyErr β) :
    (Except.error e >>= f : Except PyErr β) = Except.error e := rfl

theorem nodeNameOf_inj :
    ∀ k1 ∈ analystKeys, ∀ k2 ∈ analystKeys, nodeNameOf k1 = nodeNameOf k2 → k1 = k2 := by
  decide

theorem nodeNameOf_known_fresh :
    ∀ k ∈ analystKeys, nodeNameOf k ≠ "start_node" ∧
      nodeNameOf k ≠ "risk_management_agent" ∧
      nodeNameOf k ≠ "portfolio_management_agent" ∧
      nodeNameOf k ≠ START ∧ nodeNameOf k ≠ END := by
  decide

theorem nodeNameOf_fresh (k : String) :
    nodeNameOf k ≠ "start_node" ∧ nodeNameOf k ≠ "risk_management_agent" ∧
      nodeNameOf k ≠ "portfolio_management_agent" ∧
      nodeNameOf k ≠ START ∧ nodeNameOf k ≠ END := by
  by_cases hk : k ∈ analystKeys
  · exact nodeNameOf_known_fresh k hk
  · simp [nodeNameOf, lookup_eq_none_of_not_mem k hk, START, END]

/-! ### The graph produced by the two loops of `create_workflow` -/

theorem addAnalystNodes_ok (sel : List String) :
    ∀ (g : StateGraph), (∀ k ∈ sel, k ∈ analystKeys) → sel.Nodup →
    (∀ k ∈ sel, nodeNameOf k ∉ g.nodeNames) →
    (∀ k ∈ sel, startEdgeOf k ∉ g.edges) →
    addAnalystNodes sel g =
      .ok { nodes := g.nodes ++ sel.map analystEntry,
            edges := g.edges ++ sel.map startEdgeOf,
            entryPoint := g.entryPoint } := by
  induction sel with
  | nil => intro g _ _ _ _; simp [addAnalystNodes]
  | cons k rest ih =>
    intro g hmem hnodup hnodes hedges
    have hk : k ∈ analystKeys := hmem k (List.mem_cons_self k rest)
    have hfresh := nodeNameOf_known_fresh k hk
    have hn1 : g.add_node (nodeNameOf k) (agentFnOf k) =
        .ok { g with nodes := g.nodes ++ [(nodeNameOf k, agentFnOf k)] } := by
      simp [StateGraph.add_node, hnodes k (List.mem_cons_self k rest),
        hfresh.2.2.2.1, hfresh.2.2.2.2]
    have hn2 : ∀ g' : StateGraph, ("start_node", nodeNameOf k) ∉ g'.edges →
        g'.add_edge "start_node" (nodeNameOf k) =
          .ok { g' with edges := g'.edges ++ [("start_node", nodeNameOf k)] } := by
      intro g' hni
      have h1 : "start_node" ≠ END := by simp [END]
      have h2 : nodeNameOf k ≠ START := hfresh.2.2.2.1
      simp [StateGraph.add_edge, h1, h2, hni]
    have hrest : addAnalystNodes rest
        { g with nodes := g.nodes ++ [(nodeNameOf k, agentFnOf k)],
                 edges := g.edges ++ [("start_node", nodeNameOf k)] } =
        .ok { nodes := (g.nodes ++ [(nodeNameOf k, agentFnOf k)]) ++ rest.map analystEntry,
              edges := (g.edges ++ [("start_node", nodeNameOf k)]) ++ rest.map startEdgeOf,
              entryPoint := g.entryPoint } := by
      apply ih
      · exact fun k' hk' => hmem k' (List.mem_cons_of_mem k hk')
      · exact hnodup.of_cons
      · intro k' hk'
        have hne : nodeNameOf k' ≠ nodeNameOf k := by
          intro heq
          have : k' = k := nodeNameOf_inj k' (hmem k' (List.mem_cons_of_mem k hk'))
            k hk heq
          exact (List.nodup_cons.mp hnodup).1 (this ▸ hk')
        show nodeNameOf k' ∉ (g.nodes ++ [(nodeNameOf k, agentFnOf k)]).map Prod.fst
        rw [List.map_append]
        simp only [List.map_cons, List.map_nil, List.mem_append, List.mem_singleton]
        rintro (h | h)
        · exact hnodes k' (List.mem_cons_of_mem k hk') h
        · exact hne h
      · intro k' hk'
        have hne : startEdgeOf k' ≠ ("start_node", nodeNameOf k) := by
          intro heq
          have heq2 : nodeNameOf k' = nodeNameOf k := congrArg Prod.snd heq
          have : k' = k := nodeNameOf_inj k' (hmem k' (List.mem_cons_of_mem k hk'))
            k hk heq2
          exact (List.nodup_cons.mp hnodup).1 (this ▸ hk')
        show startEdgeOf k' ∉ g.edges ++ [("start_node", nodeNameOf k)]
        simp only [List.mem_append, List.mem_singleton]
        rintro (h | h)
        · exact hedges k' (List.mem_cons_of_mem k hk') h
        · exact hne h
    have hx : ("start_node", nodeNameOf k) ∉
        ({ nodes := g.nodes ++ [(nodeNameOf k, agentFnOf k)], edges := g.edges,
           entryPoint := g.entryPoint } : StateGraph).edges := by
      have h := hedges k (List.mem_cons_self k rest)
      simpa [startEdgeOf] using h
    simp only [addAnalystNodes, lookup_eq_of_mem k hk]
    rw [hn1]
    rw [exceptBind_ok]
    rw [hn2 _ hx]
    rw [exceptBind_ok]
    rw [hrest]
    simp [analystEntry, startEdgeOf]

theorem addRiskEdges_ok (sel : List String) :
    ∀ (g : StateGraph), (∀ k ∈ sel, k ∈ analystKeys) → sel.Nodup →
    (∀ k ∈ sel, riskEdgeOf k ∉ g.edges) →
    addRiskEdges sel g = .ok { g with edges := g.edges ++ sel.map riskEdgeOf } := by
  induction sel with
  | nil => intro g _ _ _; simp [addRiskEdges]
  | cons k rest ih =>
    intro g hmem hnodup hedges
    have hk : k ∈ analystKeys := hmem k (List.mem_cons_self k rest)
    have hfresh := nodeNameOf_known_fresh k hk
    have he : g.add_edge (nodeNameOf k) "risk_management_agent" =
        .ok { g with edges := g.edges ++ [(nodeNameOf k, "risk_management_agent")] } := by
      have h1 : nodeNameOf k ≠ END := hfresh.2.2.2.2
      have h2 : "risk_management_agent" ≠ START := by simp [START]
      have h3 : (nodeNameOf k, "risk_management_agent") ∉ g.edges :=
        hedges k (List.mem_cons_self k rest)
      simp [StateGraph.add_edge, h1, h2, h3]
    have hrest : addRiskEdges rest
        { g with edges := g.edges ++ [(nodeNameOf k, "risk_management_agent")] } =
        .ok { g with edges := (g.edges ++ [(nodeNameOf k, "risk_management_agent")]) ++
                rest.map riskEdgeOf } := by
      apply ih
      · exact fun k' hk' => hmem k' (List.mem_cons_of_mem k hk')
      · exact hnodup.of_cons
      · intro k' hk'
        have hne : riskEdgeOf k' ≠ (nodeNameOf k, "risk_management_agent") := by
          intro heq
          have heq2 : nodeNameOf k' = nodeNameOf k := congrArg Prod.fst heq
          have : k' = k := nodeNameOf_inj k' (hmem k' (List.mem_cons_of_mem k hk'))
            k hk heq2
          exact (List.nodup_cons.mp hnodup).1 (this ▸ hk')
        show riskEdgeOf k' ∉ g.edges ++ [(nodeNameOf k, "risk_management_agent")]
        simp only [List.mem_append, List.mem_singleton]
        rintro (h | h)
        · exact hedges k' (List.mem_cons_of_mem k hk') h
        · exact hne h
    simp only [addRiskEdges, lookup_eq_of_mem k hk]
    rw [he]
    rw [exceptBind_ok]
    rw [hrest]
    simp [riskEdgeOf]

theorem add_node_ok (g : StateGraph) (n : String) (f : AgentFn)
    (h1 : n ∉ g.nodeNames) (h2 : n ≠ START) (h3 : n ≠ END) :
    g.add_node n f = .ok { g with nodes := g.nodes ++ [(n, f)] } := by
  simp [StateGraph.add_node, h1, h2, h3]

theorem add_edge_ok (g : StateGraph) (s t : String)
    (h1 : s ≠ END) (h2 : t ≠ START) (h3 : (s, t) ∉ g.edges) :
    g.add_edge s t = .ok { g with edges := g.edges ++ [(s, t)] } := by
  simp [StateGraph.add_edge, h1, h2, h3]

theorem map_fst_analystEntry (sel : List String) :
    (sel.map analystEntry).map Prod.fst = sel.map nodeNameOf := by
  rw [List.map_map]; rfl

/-- For a duplicate-free selection of known keys, `create_workflow` builds
exactly the workflow graph the spec describes. -/
theorem create_workflow_known (sel : List String)
    (hmem : ∀ k ∈ sel, k ∈ analystKeys) (hnd : sel.Nodup) :
    create_workflow (some sel) = .ok (specWorkflowGraph sel) := by
  simp only [create_workflow, Option.getD_some]
  rw [add_node_ok { nodes := [], edges := [], entryPoint := none } "start_node" .startAgent
    (by simp [StateGraph.nodeNames]) (by simp [START]) (by simp [END])]
  rw [exceptBind_ok]
  simp only [List.nil_append]
  rw [addAnalystNodes_ok sel
    { nodes := [("start_node", AgentFn.startAgent)], edges := [], entryPoint := none }
    hmem hnd
    (by intro k hk
        simp only [StateGraph.nodeNames, List.map_cons, List.map_nil, List.mem_singleton]
        exact (nodeNameOf_fresh k).1)
    (by intro k hk; simp)]
  rw [exceptBind_ok]
  simp only [List.nil_append, List.singleton_append]
  rw [add_node_ok
    { nodes := ("start_node", AgentFn.startAgent) :: sel.map analystEntry,
      edges := sel.map startEdgeOf, entryPoint := none }
    "risk_management_agent" .riskManagementAgent
    (by simp only [StateGraph.nodeNames, List.map_cons, List.mem_cons, map_fst_analystEntry,
          List.mem_map]
        rintro (h | ⟨k, _, h⟩)
        · exact absurd h (by simp)
        · exact (nodeNameOf_fresh k).2.1 h)
    (by simp [START]) (by simp [END])]
  rw [exceptBind_ok]
  simp only [List.cons_append]
  rw [add_node_ok
    { nodes := ("start_node", AgentFn.startAgent) ::
        (sel.map analystEntry ++ [("risk_management_agent", AgentFn.riskManagementAgent)]),
      edges := sel.map startEdgeOf, entryPoint := none }
    "portfolio_management_agent" .portfolioManagementAgent
    (by simp only [StateGraph.nodeNames, List.map_cons, List.mem_cons, List.map_append,
          map_fst_analystEntry, List.mem_append, List.mem_map, List.map_nil,
          List.mem_singleton]
        rintro (h | (⟨k, _, h⟩ | h))
        · exact absurd h (by simp)
        · exact (nodeNameOf_fresh k).2.2.1 h
        · exact absurd h (by simp))
    (by simp [START]) (by simp [END])]
  rw [exceptBind_ok]
  simp only [List.cons_append, List.append_assoc, List.singleton_append, List.nil_append]
  rw [addRiskEdges_ok sel
    { nodes := ("start_node", AgentFn.startAgent) ::
        (sel.map analystEntry ++ [("risk_management_agent", AgentFn.riskManagementAgent),
          ("portfolio_management_agent", AgentFn.portfolioManagementAgent)]),
      edges := sel.map startEdgeOf, entryPoint := none }
    hmem hnd
    (by intro k hk
        simp only [List.mem_map, startEdgeOf, riskEdgeOf]
        rintro ⟨k', _, h⟩
        exact (nodeNameOf_fresh k).1 (congrArg Prod.fst h).symm)]
  rw [exceptBind_ok]
  rw [add_edge_ok
    { nodes := ("start_node", AgentFn.startAgent) ::
        (sel.map analystEntry ++ [("risk_management_agent", AgentFn.riskManagementAgent),
          ("portfolio_management_agent", AgentFn.portfolioManagementAgent)]),
      edges := sel.map startEdgeOf ++ sel.map riskEdgeOf, entryPoint := none }
    "risk_management_agent" "portfolio_management_agent"
    (by simp [END]) (by simp [START])
    (by simp only [List.mem_append, List.mem_map, startEdgeOf, riskEdgeOf]
        rintro (⟨k, _, h⟩ | ⟨k, _, h⟩)
        · exact absurd ((Prod.mk.injEq _ _ _ _).mp h).1 (by simp)
        · exact absurd ((Prod.mk.injEq _ _ _ _).mp h).2 (by simp))]
  rw [exceptBind_ok]
  rw [add_edge_ok
    { nodes := ("start_node", AgentFn.startAgent) ::
        (sel.map analystEntry ++ [("risk_management_agent", AgentFn.riskManagementAgent),
          ("portfolio_management_agent", AgentFn.portfolioManagementAgent)]),
      edges := (sel.map startEdgeOf ++ sel.map riskEdgeOf) ++
        [("risk_management_agent", "portfolio_management_agent")], entryPoint := none }
    "portfolio_management_agent" END
    (by simp [END]) (by simp [START, END])
    (by simp only [List.mem_append, List.mem_map, startEdgeOf, riskEdgeOf,
          List.mem_singleton]
        rintro ((⟨k, _, h⟩ | ⟨k, _, h⟩) | h)
        · exact absurd ((Prod.mk.injEq _ _ _ _).mp h).1 (by simp)
        · exact absurd ((Prod.mk.injEq _ _ _ _).mp h).2 (by simp [END])
        · exact absurd ((Prod.mk.injEq _ _ _ _).mp h).1 (by simp))]
  rw [exceptBind_ok]
  simp [StateGraph.set_entry_point, specWorkflowGraph, pure, Except.pure,
    List.append_assoc]

/-- `create_workflow(None)` defaults to the all-analyst graph. -/
theorem create_workflow_default :
    create_workflow none = .ok (specWorkflowGraph analystKeys) := by
  have h := create_workflow_known analystKeys (fun k hk => hk) (by decide)
  simp only [create_workflow, Option.getD_some, Option.getD_none] at h ⊢
  exact h

/-- In the spec graph, the only edge into `portfolio_management_agent` comes
from `risk_management_agent`. -/
theorem edge_into_portfolio {sel : List String} {s : String}
    (h : (s, "portfolio_management_agent") ∈ (specWorkflowGraph sel).edges) :
    s = "risk_management_agent" := by
  simp only [specWorkflowGraph, List.mem_append, List.mem_map, startEdgeOf, riskEdgeOf,
    List.mem_cons, List.mem_singleton, Prod.mk.injEq, List.not_mem_nil, END] at h
  rcases h with ((⟨k, _, _, hbad⟩ | ⟨k, _, _, hbad⟩) | (⟨h1, _⟩ | ⟨_, hbad⟩ | hfalse))
  · exact absurd hbad (nodeNameOf_fresh k).2.2.1
  · exact absurd hbad (by simp)
  · exact h1
  · exact absurd hbad (by simp)
  · exact hfalse.elim

/-- Risk management precedes portfolio management on every execution path of
the spec graph. -/
theorem spec_graph_risk_precedes (sel : List String) :
    RiskPrecedesPortfolio (specWorkflowGraph sel) := by
  intro p hp j hj hpj
  obtain ⟨hhead, hstep⟩ := hp
  cases j with
  | zero =>
    exfalso
    cases p with
    | nil => simp at hj
    | cons a p' =>
      have ha : a = "start_node" := by
        simpa [specWorkflowGraph] using hhead
      rw [List.getD_cons_zero, ha] at hpj
      exact absurd hpj (by simp)
  | succ j' =>
    have hedge := hstep j' hj
    rw [hpj] at hedge
    exact ⟨j', Nat.lt_succ_self j', edge_into_portfolio hedge⟩

/-- Claim C1: for every non-empty selection of known analyst keys (a
selection is a set of keys per the spec's data model, hence duplicate-free),
`create_workflow` returns exactly the workflow graph the spec describes: one
node per key plus the start, risk-management and portfolio-management nodes
(all node names distinct), edges start→each analyst, each analyst→risk
management, risk management→portfolio management, portfolio
management→terminal, entry point `start_node`, and risk management strictly
precedes portfolio management on every execution path. -/
theorem claim_c1 (sel : List String) (_hne : sel ≠ [])
    (hmem : ∀ k ∈ sel, k ∈ analystKeys) (hnd : sel.Nodup) :
    create_workflow (some sel) = .ok (specWorkflowGraph sel) ∧
    (specWorkflowGraph sel).nodeNames =
      "start_node" :: (sel.map nodeNameOf ++
        ["risk_management_agent", "portfolio_management_agent"]) ∧
    (sel.map nodeNameOf).Nodup ∧
    (specWorkflowGraph sel).entryPoint = some "start_node" ∧
    RiskPrecedesPortfolio (specWorkflowGraph sel) := by
  refine ⟨create_workflow_known sel hmem hnd, ?_, ?_, rfl, spec_graph_risk_precedes sel⟩
  · simp only [specWorkflowGraph, StateGraph.nodeNames, List.map_cons, List.map_append,
      map_fst_analystEntry]
    simp [analystEntry]
  · exact List.Nodup.map_on
      (fun x hx y hy h => nodeNameOf_inj x (hmem x hx) y (hmem y hy) h) hnd

/-- Witness for C1 at the concrete selection `["technical_analyst"]`. -/
theorem claim_c1_witness :
    create_workflow (some ["technical_analyst"]) =
      .ok (specWorkflowGraph ["technical_analyst"]) ∧
    (specWorkflowGraph ["technical_analyst"]).nodeNames =
      "start_node" :: ((["technical_analyst"] : List String).map nodeNameOf ++
        ["risk_management_agent", "portfolio_management_agent"]) ∧
    ((["technical_analyst"] : List String).map nodeNameOf).Nodup ∧
    (specWorkflowGraph ["technical_analyst"]).entryPoint = some "start_node" ∧
    RiskPrecedesPortfolio (specWorkflowGraph ["technical_analyst"]) :=
  claim_c1 ["technical_analyst"] (by simp) (by decide) (by decide)

/-! ### Failure modes of the first `create_workflow` loop -/

theorem addAnalystNodes_cons_unknown (x : String) (rest : List String) (g : StateGraph)
    (hx : x ∉ analystKeys) :
    addAnalystNodes (x :: rest) g = .error (.keyError x) := by
  simp only [addAnalystNodes, lookup_eq_none_of_not_mem x hx]

theorem addAnalystNodes_cons_dup (x : String) (rest : List String) (g : StateGraph)
    (hx : x ∈ analystKeys) (hxn : nodeNameOf x ∈ g.nodeNames) :
    addAnalystNodes (x :: rest) g =
      .error (.valueError ("Node " ++ nodeNameOf x ++ " already present")) := by
  simp only [addAnalystNodes, lookup_eq_of_mem x hx]
  rw [show g.add_node (nodeNameOf x) (agentFnOf x) =
      .error (.valueError ("Node " ++ nodeNameOf x ++ " already present")) from by
    simp [StateGraph.add_node, hxn]]
  rw [exceptBind_err]

theorem addAnalystNodes_cons_step (x : String) (rest : List String) (g : StateGraph)
    (hx : x ∈ analystKeys) (hxn : nodeNameOf x ∉ g.nodeNames) :
    ∃ g2 : StateGraph, addAnalystNodes (x :: rest) g = addAnalystNodes rest g2 ∧
      g2.nodeNames = g.nodeNames ++ [nodeNameOf x] := by
  have hfresh := nodeNameOf_known_fresh x hx
  have hn1 := add_node_ok g (nodeNameOf x) (agentFnOf x) hxn hfresh.2.2.2.1 hfresh.2.2.2.2
  have hedge : ∃ g2 : StateGraph,
      ({ g with nodes := g.nodes ++ [(nodeNameOf x, agentFnOf x)] } : StateGraph).add_edge
        "start_node" (nodeNameOf x) = .ok g2 ∧
      g2.nodes = g.nodes ++ [(nodeNameOf x, agentFnOf x)] := by
    simp only [StateGraph.add_edge]
    rw [if_neg (show ¬ "start_node" = END by simp [END]), if_neg hfresh.2.2.2.1]
    exact ⟨_, rfl, rfl⟩
  obtain ⟨g2, hg2, hg2nodes⟩ := hedge
  refine ⟨g2, ?_, ?_⟩
  · simp only [addAnalystNodes, lookup_eq_of_mem x hx]
    rw [hn1, exceptBind_ok, hg2, exceptBind_ok]
  · rw [StateGraph.nodeNames, hg2nodes]
    simp [StateGraph.nodeNames]

theorem addAnalystNodes_unknown (sel : List String) :
    ∀ (g : StateGraph), sel.Nodup →
    (∀ k ∈ sel, k ∈ analystKeys → nodeNameOf k ∉ g.nodeNames) →
    (∃ k ∈ sel, k ∉ analystKeys) →
    ∃ k, k ∈ sel ∧ k ∉ analystKeys ∧ addAnalystNodes sel g = .error (.keyError k) := by
  induction sel with
  | nil => intro g _ _ h; simp at h
  | cons x rest ih =>
    intro g hnd hfreshn hex
    by_cases hx : x ∈ analystKeys
    · obtain ⟨k0, hk0mem, hk0un⟩ := hex
      have hk0rest : k0 ∈ rest := by
        rcases List.mem_cons.mp hk0mem with rfl | h
        · exact absurd hx hk0un
        · exact h
      obtain ⟨g2, hstep, hnames⟩ := addAnalystNodes_cons_step x rest g hx
        (hfreshn x (List.mem_cons_self x rest) hx)
      have hfresh2 : ∀ k ∈ rest, k ∈ analystKeys → nodeNameOf k ∉ g2.nodeNames := by
        intro k' hk' hk'known
        rw [hnames]
        simp only [List.mem_append, List.mem_singleton]
        rintro (h | h)
        · exact hfreshn k' (List.mem_cons_of_mem x hk') hk'known h
        · have : k' = x := nodeNameOf_inj k' hk'known x hx h
          exact (List.nodup_cons.mp hnd).1 (this ▸ hk')
      obtain ⟨k, hkrest, hkun, heq⟩ := ih g2 hnd.of_cons hfresh2 ⟨k0, hk0rest, hk0un⟩
      exact ⟨k, List.mem_cons_of_mem x hkrest, hkun, by rw [hstep, heq]⟩
    · exact ⟨x, List.mem_cons_self x rest, hx, addAnalystNodes_cons_unknown x rest g hx⟩

theorem addAnalystNodes_bad (sel : List String) :
    ∀ g : StateGraph, (∃ k ∈ sel, k ∉ analystKeys ∨ nodeNameOf k ∈ g.nodeNames) →
    ∃ e, addAnalystNodes sel g = .error e := by
  induction sel with
  | nil => intro g h; simp at h
  | cons x rest ih =>
    intro g hex
    by_cases hx : x ∈ analystKeys
    · by_cases hxn : nodeNameOf x ∈ g.nodeNames
      · exact ⟨_, addAnalystNodes_cons_dup x rest g hx hxn⟩
      · obtain ⟨g2, hstep, hnames⟩ := addAnalystNodes_cons_step x rest g hx hxn
        obtain ⟨k0, hk0mem, hk0⟩ := hex
        have hk0rest : k0 ∈ rest := by
          rcases List.mem_cons.mp hk0mem with rfl | h
          · rcases hk0 with h | h
            · exact absurd hx h
            · exact absurd h hxn
          · exact h
        have hk0' : k0 ∉ analystKeys ∨ nodeNameOf k0 ∈ g2.nodeNames := by
          rcases hk0 with h | h
          · exact Or.inl h
          · exact Or.inr (by rw [hnames]; exact List.mem_append_left _ h)
        obtain ⟨e, he⟩ := ih g2 ⟨k0, hk0rest, hk0'⟩
        exact ⟨e, by rw [hstep, he]⟩
    · exact ⟨_, addAnalystNodes_cons_unknown x rest g hx⟩

theorem addAnalystNodes_of_not_nodup (sel : List String) :
    ∀ g : StateGraph, ¬ sel.Nodup → ∃ e, addAnalystNodes sel g = .error e := by
  induction sel with
  | nil => intro g h; exact absurd List.nodup_nil h
  | cons x rest ih =>
    intro g hnd
    by_cases hx : x ∈ analystKeys
    · by_cases hxn : nodeNameOf x ∈ g.nodeNames
      · exact ⟨_, addAnalystNodes_cons_dup x rest g hx hxn⟩
      · obtain ⟨g2, hstep, hnames⟩ := addAnalystNodes_cons_step x rest g hx hxn
        have hsplit : x ∈ rest ∨ ¬ rest.Nodup := by
          by_contra hcon
          push_neg at hcon
          exact hnd (List.nodup_cons.mpr ⟨hcon.1, hcon.2⟩)
        rcases hsplit with hmem | hnd'
        · obtain ⟨e, he⟩ := addAnalystNodes_bad rest g2
            ⟨x, hmem, Or.inr (by simp [hnames])⟩
          exact ⟨e, by rw [hstep, he]⟩
        · obtain ⟨e, he⟩ := ih g2 hnd'
          exact ⟨e, by rw [hstep, he]⟩
    · exact ⟨_, addAnalystNodes_cons_unknown x rest g hx⟩

/-- An error in the first loop aborts the whole of `create_workflow` with the
same exception. -/
theorem create_workflow_of_loop_error {sel : List String} {e : PyErr}
    (h : addAnalystNodes sel
      { nodes := [("start_node", AgentFn.startAgent)], edges := [], entryPoint := none } =
        .error e) :
    create_workflow (some sel) = .error e := by
  simp only [create_workflow, Option.getD_some]
  rw [add_node_ok { nodes := [], edges := [], entryPoint := none } "start_node" .startAgent
    (by simp [StateGraph.nodeNames]) (by simp [START]) (by simp [END])]
  rw [exceptBind_ok]
  simp only [List.nil_append]
  rw [h]
  rw [exceptBind_err]

/-- Claim C2: for every selection (a set of keys, hence duplicate-free)
containing a key outside the fixed registry, `create_workflow` fails with the
registry lookup's `KeyError` on an unknown key — the spec's
`UnknownAnalystError` — and returns no graph at all: no node or edge
registration survives the failure. -/
theorem claim_c2 (sel : List String) (hnd : sel.Nodup)
    (hex : ∃ k ∈ sel, k ∉ analystKeys) :
    (∃ k, k ∈ sel ∧ k ∉ analystKeys ∧
      create_workflow (some sel) = .error (.keyError k)) ∧
    ∀ g, create_workflow (some sel) ≠ .ok g := by
  obtain ⟨k, hmem, hun, heq⟩ := addAnalystNodes_unknown sel
    { nodes := [("start_node", AgentFn.startAgent)], edges := [], entryPoint := none }
    hnd
    (by intro k' _ _
        simp only [StateGraph.nodeNames, List.map_cons, List.map_nil, List.mem_singleton]
        exact (nodeNameOf_fresh k').1)
    hex
  have hcw := create_workflow_of_loop_error heq
  refine ⟨⟨k, hmem, hun, hcw⟩, ?_⟩
  intro g hg
  rw [hcw] at hg
  exact Except.noConfusion hg

/-- Witness for C2 at the unknown key `"momentum_analyst"`. -/
theorem claim_c2_witness :
    (∃ k, k ∈ ["momentum_analyst"] ∧ k ∉ analystKeys ∧
      create_workflow (some ["momentum_analyst"]) = .error (.keyError k)) ∧
    ∀ g, create_workflow (some ["momentum_analyst"]) ≠ .ok g :=
  claim_c2 ["momentum_analyst"] (by decide) ⟨"momentum_analyst", by decide, by decide⟩

/-- Counterexample to C6 as stated: a duplicated key does not yield a
deduplicated one-node graph — `create_workflow` raises langgraph's
duplicate-node `ValueError` instead. -/
theorem claim_c6_counterexample :
    create_workflow (some ["technical_analyst", "technical_analyst"]) =
      .error (.valueError "Node technical_analyst_agent already present") := by
  rfl

/-- Claim C6 (amended): a selection containing duplicate analyst keys makes
`create_workflow` fail (with the duplicate-node error, or with the unknown-key
error when an unknown key comes first) and return no graph at all — so a key
appearing twice never produces two analyst nodes or two edges into risk
management, but neither does it produce the deduplicated graph the claim
expected. -/
theorem claim_c6 (sel : List String) (hnd : ¬ sel.Nodup) :
    (∃ e, create_workflow (some sel) = .error e) ∧
    ∀ g, create_workflow (some sel) ≠ .ok g := by
  obtain ⟨e, he⟩ := addAnalystNodes_of_not_nodup sel
    { nodes := [("start_node", AgentFn.startAgent)], edges := [], entryPoint := none } hnd
  have hcw := create_workflow_of_loop_error he
  refine ⟨⟨e, hcw⟩, ?_⟩
  intro g hg
  rw [hcw] at hg
  exact Except.noConfusion hg

/-- Witness for the amended C6 at the duplicated selection. -/
theorem claim_c6_witness :
    (¬ (["technical_analyst", "technical_analyst"] : List String).Nodup) ∧
    (∃ e, create_workflow (some ["technical_analyst", "technical_analyst"]) = .error e) ∧
    ∀ g, create_workflow (some ["technical_analyst", "technical_analyst"]) ≠ .ok g :=
  ⟨by decide, claim_c6 ["technical_analyst", "technical_analyst"] (by decide)⟩

/-- Counterexample to C7 as stated: `create_workflow` called with an *empty*
selection does not default to the four analysts — it builds a graph whose
only nodes are `start_node` and the risk/portfolio management nodes, with no
analyst node at all. -/
theorem claim_c7_counterexample :
    create_workflow (some []) = .ok (specWorkflowGraph []) ∧
    (specWorkflowGraph []).nodeNames =
      ["start_node", "risk_management_agent", "portfolio_management_agent"] :=
  ⟨create_workflow_known [] (by simp) List.nodup_nil, rfl⟩

/-- Claim C7 (amended): with an *absent* selection (`None`) `create_workflow`
defaults to all four analysts, each wired start→analyst→risk management, and
the CLI turns an empty interactive selection into `None` before calling
`create_workflow`; only a literal empty list passed to `create_workflow`
produces a graph without analyst nodes. -/
theorem claim_c7 :
    create_workflow none = .ok (specWorkflowGraph analystKeys) ∧
    cli_selected_analysts [] = none ∧
    ∀ k ∈ analystKeys,
      ("start_node", nodeNameOf k) ∈ (specWorkflowGraph analystKeys).edges ∧
      (nodeNameOf k, "risk_management_agent") ∈ (specWorkflowGraph analystKeys).edges := by
  refine ⟨create_workflow_default, rfl, ?_⟩
  decide

/-! ### The runner -/

/-- Claim C3: for every final state whose last message content is not
parseable JSON, `run_hedge_fund` returns `decision = none` together with
whatever `analyst_signals` the final state contains, and does not raise
(the call returns `.ok`, with the only fallible parse wrapped by
`parse_hedge_fund_response`). -/
theorem claim_c3 (a : CompiledGraph) (final : AgentState) (m : ChatMessage)
    (ticker start_date end_date : String) (portfolio : Portfolio) (show_reasoning : Bool)
    (hlast : final.messages.getLast? = some m)
    (hparse : jsonLoads m.content = none) :
    run_hedge_fund (fun _ _ => .ok final) (some a) ticker start_date end_date
      portfolio show_reasoning none =
      .ok { decision := none, analyst_signals := final.data.analyst_signals } := by
  simp only [run_hedge_fund, hedge_fund_output, parse_hedge_fund_response]
  rw [exceptBind_ok, exceptBind_ok, hlast]
  simp [hparse]

/-- Witness for C3 at a concrete unparseable final message. -/
theorem claim_c3_witness :
    jsonLoads "no decision" = none ∧
    run_hedge_fund
      (fun _ _ => .ok
        { messages := [{ content := "no decision" }],
          data := { ticker := "AAPL",
                    portfolio := { cash := Yaml.num 100000, stock := Yaml.num 0 },
                    start_date := "2024-01-01", end_date := "2024-04-01",
                    analyst_signals := [("sentiment_agent", Json.str "bullish")] },
          metadata := { show_reasoning := false } })
      (some { graph := { nodes := [], edges := [], entryPoint := none } })
      "AAPL" "2024-01-01" "2024-04-01"
      { cash := Yaml.num 100000, stock := Yaml.num 0 } false none =
      .ok { decision := none,
            analyst_signals := [("sentiment_agent", Json.str "bullish")] } :=
  ⟨rfl, claim_c3 _ _ { content := "no decision" } _ _ _ _ _ rfl rfl⟩

/-- Claim C9: calling `run_hedge_fund` with its default
`selected_analysts = None` from outside the CLI entry point reads the global
name `app`, which is never bound at module scope (the binding is commented out
and only created inside `__main__`), so every such call raises `NameError`
instead of running the default all-analyst graph. -/
theorem claim_c9 (invoke : CompiledGraph → AgentState → Except PyErr AgentState)
    (ticker start_date end_date : String) (portfolio : Portfolio)
    (show_reasoning : Bool) :
    run_hedge_fund invoke module_app_binding ticker start_date end_date portfolio
      show_reasoning none = .error (.nameError "app") := rfl

/-! ### The `__main__` per-ticker loop -/

/-- Claim C4: for every ticker list whose portfolio construction succeeds, an
exception raised inside one ticker's graph execution (an error from `runOne`)
is caught at the per-ticker boundary: the loop never aborts and every ticker —
including those after a failing one — is attempted and reported. -/
theorem claim_c4 (base_cash : Yaml) (positions : List (String × Yaml))
    (runOne : String → Portfolio → Except PyErr HedgeFundResult) (tickers : List String)
    (hok : ∀ t ∈ tickers, (build_ticker_portfolio base_cash positions t).isOk = true) :
    (process_tickers base_cash positions runOne tickers).aborted = none ∧
    (process_tickers base_cash positions runOne tickers).reports.map
      TickerReport.ticker = tickers := by
  induction tickers with
  | nil => exact ⟨rfl, rfl⟩
  | cons t rest ih =>
    have ht := hok t (List.mem_cons_self t rest)
    obtain ⟨pf, hpf⟩ : ∃ pf, build_ticker_portfolio base_cash positions t = .ok pf := by
      cases h : build_ticker_portfolio base_cash positions t with
      | ok pf => exact ⟨pf, rfl⟩
      | error e => rw [h] at ht; simp [Except.isOk, Except.toBool] at ht
    obtain ⟨ha, hr⟩ := ih (fun t' ht' => hok t' (List.mem_cons_of_mem t ht'))
    constructor
    · simp only [process_tickers, hpf]
      exact ha
    · simp only [process_tickers, hpf, List.map_cons]
      simp [hr]

/-- Witness for C4: three tickers, with the graph execution failing on the
second one; the first and third are still attempted and reported. -/
theorem claim_c4_witness :
    (∀ t ∈ ["AAPL", "MSFT", "NVDA"],
      (build_ticker_portfolio (Yaml.num 100000)
        [("AAPL", Yaml.map [("stock", Yaml.num 0)]),
         ("MSFT", Yaml.map [("stock", Yaml.num 0)]),
         ("NVDA", Yaml.map [("stock", Yaml.num 0)])] t).isOk = true) ∧
    (process_tickers (Yaml.num 100000)
        [("AAPL", Yaml.map [("stock", Yaml.num 0)]),
         ("MSFT", Yaml.map [("stock", Yaml.num 0)]),
         ("NVDA", Yaml.map [("stock", Yaml.num 0)])]
        (fun t _ => if t == "MSFT" then .error (.valueError "boom")
          else .ok { decision := none, analyst_signals := [] })
        ["AAPL", "MSFT", "NVDA"]).aborted = none ∧
    (process_tickers (Yaml.num 100000)
        [("AAPL", Yaml.map [("stock", Yaml.num 0)]),
         ("MSFT", Yaml.map [("stock", Yaml.num 0)]),
         ("NVDA", Yaml.map [("stock", Yaml.num 0)])]
        (fun t _ => if t == "MSFT" then .error (.valueError "boom")
          else .ok { decision := none, analyst_signals := [] })
        ["AAPL", "MSFT", "NVDA"]).reports.map TickerReport.ticker =
      ["AAPL", "MSFT", "NVDA"] :=
  ⟨by decide, claim_c4 _ _ _ _ (by decide)⟩

/-- Claim C10: the per-ticker portfolio construction
(`positions[ticker].get("stock", 0)`) runs outside the per-ticker `try`, so
when some ticker's position entry is not a mapping (e.g. a YAML null), the
resulting `AttributeError` escapes the per-ticker boundary: the loop aborts,
and only the tickers before the bad one are reported — the remaining tickers
are never attempted. -/
theorem claim_c10 (base_cash : Yaml) (positions : List (String × Yaml))
    (runOne : String → Portfolio → Except PyErr HedgeFundResult)
    (pre post : List String) (t : String) (v : Yaml)
    (hpre : ∀ p ∈ pre, (build_ticker_portfolio base_cash positions p).isOk = true)
    (hlookup : positions.lookup t = some v)
    (hnotmap : ∀ kvs, v ≠ Yaml.map kvs) :
    (process_tickers base_cash positions runOne (pre ++ t :: post)).aborted =
      some (.attributeError "get stock") ∧
    (process_tickers base_cash positions runOne (pre ++ t :: post)).reports.map
      TickerReport.ticker = pre := by
  induction pre with
  | nil =>
    have hbuild : build_ticker_portfolio base_cash positions t =
        .error (.attributeError "get stock") := by
      simp only [build_ticker_portfolio, hlookup]
      rw [exceptBind_ok]
      cases v with
      | map kvs => exact absurd rfl (hnotmap kvs)
      | null => rfl
      | bool b => rfl
      | num q => rfl
      | str s => rfl
      | seq xs => rfl
    simp [List.nil_append, process_tickers, hbuild]
  | cons p pre' ih =>
    have hp := hpre p (List.mem_cons_self p pre')
    obtain ⟨pf, hpf⟩ : ∃ pf, build_ticker_portfolio base_cash positions p = .ok pf := by
      cases h : build_ticker_portfolio base_cash positions p with
      | ok pf => exact ⟨pf, rfl⟩
      | error e => rw [h] at hp; simp [Except.isOk, Except.toBool] at hp
    obtain ⟨ha, hr⟩ := ih (fun q hq => hpre q (List.mem_cons_of_mem p hq))
    constructor
    · simp only [List.cons_append, process_tickers, hpf]
      exact ha
    · simp only [List.cons_append, process_tickers, hpf, List.map_cons]
      simp [hr]

/-- Witness for C10: positions `{AAPL: {stock: 10}, MSFT: null, NVDA:
{stock: 5}}` — AAPL is reported, the null MSFT entry aborts the loop, NVDA is
never attempted, even though the graph execution itself never fails. -/
theorem claim_c10_witness :
    ([("AAPL", Yaml.map [("stock", Yaml.num 10)]), ("MSFT", Yaml.null),
      ("NVDA", Yaml.map [("stock", Yaml.num 5)])].lookup "MSFT" = some Yaml.null) ∧
    (process_tickers (Yaml.num 50000)
        [("AAPL", Yaml.map [("stock", Yaml.num 10)]), ("MSFT", Yaml.null),
         ("NVDA", Yaml.map [("stock", Yaml.num 5)])]
        (fun _ _ => .ok { decision := none, analyst_signals := [] })
        (["AAPL"] ++ "MSFT" :: ["NVDA"])).aborted =
      some (.attributeError "get stock") ∧
    (process_tickers (Yaml.num 50000)
        [("AAPL", Yaml.map [("stock", Yaml.num 10)]), ("MSFT", Yaml.null),
         ("NVDA", Yaml.map [("stock", Yaml.num 5)])]
        (fun _ _ => .ok { decision := none, analyst_signals := [] })
        (["AAPL"] ++ "MSFT" :: ["NVDA"])).reports.map TickerReport.ticker = ["AAPL"] :=
  ⟨rfl, claim_c10 _ _ _ ["AAPL"] ["NVDA"] "MSFT" Yaml.null (by decide) rfl
    (fun kvs h => Yaml.noConfusion h)⟩

/-! ### Date defaulting -/

theorem daysInMonth_pos (y m : Nat) : 1 ≤ daysInMonth y m := by
  unfold daysInMonth
  split_ifs <;> omega

/-- Claim C5: when no explicit start date is supplied, the resolved start
date is the end date minus exactly three calendar months in `relativedelta`'s
sense — the linear month index decreases by exactly 3 and the day is
preserved up to clamping at the target month's length — including the
spec's examples `2024-05-15 → 2024-02-15` and the month-length edge case
`2024-01-31 → 2023-10-31`. -/
theorem claim_c5 :
    (∀ E : Date, ValidDate E → 1 ≤ E.year →
      ValidDate (resolved_start_date E) ∧
      (resolved_start_date E).year * 12 + (resolved_start_date E).month + 3 =
        E.year * 12 + E.month ∧
      (resolved_start_date E).day =
        min E.day (daysInMonth (resolved_start_date E).year
          (resolved_start_date E).month)) ∧
    resolved_start_date ⟨2024, 5, 15⟩ = ⟨2024, 2, 15⟩ ∧
    strftime_ymd (resolved_start_date ⟨2024, 5, 15⟩) = "2024-02-15" ∧
    resolved_start_date ⟨2024, 1, 31⟩ = ⟨2023, 10, 31⟩ ∧
    strftime_ymd (resolved_start_date ⟨2024, 1, 31⟩) = "2023-10-31" := by
  refine ⟨?_, by decide, rfl, by decide, rfl⟩
  intro E hV hY
  obtain ⟨hm1, hm2, hd1, hd2⟩ := hV
  refine ⟨⟨?_, ?_, ?_, ?_⟩, ?_, rfl⟩
  · show 1 ≤ (E.year * 12 + (E.month - 1) - 3) % 12 + 1
    omega
  · show (E.year * 12 + (E.month - 1) - 3) % 12 + 1 ≤ 12
    omega
  · show 1 ≤ min E.day (daysInMonth ((E.year * 12 + (E.month - 1) - 3) / 12)
      ((E.year * 12 + (E.month - 1) - 3) % 12 + 1))
    exact Nat.le_min.mpr ⟨hd1, daysInMonth_pos _ _⟩
  · exact Nat.min_le_right _ _
  · show (E.year * 12 + (E.month - 1) - 3) / 12 * 12 +
      ((E.year * 12 + (E.month - 1) - 3) % 12 + 1) + 3 = E.year * 12 + E.month
    omega

/-- Witness for C5 at the end date 2024-05-15. -/
theorem claim_c5_witness :
    ValidDate ⟨2024, 5, 15⟩ ∧ 1 ≤ (⟨2024, 5, 15⟩ : Date).year ∧
    (ValidDate (resolved_start_date ⟨2024, 5, 15⟩) ∧
      (resolved_start_date ⟨2024, 5, 15⟩).year * 12 +
          (resolved_start_date ⟨2024, 5, 15⟩).month + 3 =
        (⟨2024, 5, 15⟩ : Date).year * 12 + (⟨2024, 5, 15⟩ : Date).month ∧
      (resolved_start_date ⟨2024, 5, 15⟩).day =
        min (⟨2024, 5, 15⟩ : Date).day
          (daysInMonth (resolved_start_date ⟨2024, 5, 15⟩).year
            (resolved_start_date ⟨2024, 5, 15⟩).month)) :=
  ⟨by decide, by decide, claim_c5.1 ⟨2024, 5, 15⟩ (by decide) (by decide)⟩

/-! ### Config resolution -/

/-- Claim C8: the resolved per-ticker portfolio uses `portfolio.cash` when
present and `100000.0` when missing (whether the whole `portfolio` mapping or
just its `cash` key is absent), and each position's `stock` value when present
and `0` when missing. -/
theorem claim_c8 :
    (∀ (cfg P : List (String × Yaml)) (c : Yaml),
      cfg.lookup "portfolio" = some (.map P) → P.lookup "cash" = some c →
      resolve_base_cash (.map cfg) = .ok c) ∧
    (∀ cfg : List (String × Yaml),
      cfg.lookup "portfolio" = none →
      resolve_base_cash (.map cfg) = .ok (.num 100000)) ∧
    (∀ cfg P : List (String × Yaml),
      cfg.lookup "portfolio" = some (.map P) → P.lookup "cash" = none →
      resolve_base_cash (.map cfg) = .ok (.num 100000)) ∧
    (∀ (cash : Yaml) (positions E : List (String × Yaml)) (ticker : String) (s : Yaml),
      positions.lookup ticker = some (.map E) → E.lookup "stock" = some s →
      build_ticker_portfolio cash positions ticker = .ok { cash := cash, stock := s }) ∧
    (∀ (cash : Yaml) (positions E : List (String × Yaml)) (ticker : String),
      positions.lookup ticker = some (.map E) → E.lookup "stock" = none →
      build_ticker_portfolio cash positions ticker =
        .ok { cash := cash, stock := .num 0 }) := by
  refine ⟨?_, ?_, ?_, ?_, ?_⟩
  · intro cfg P c h1 h2
    simp [resolve_base_cash, yamlGet, h1, h2, exceptBind_ok]
  · intro cfg h1
    simp [resolve_base_cash, yamlGet, h1, exceptBind_ok]
  · intro cfg P h1 h2
    simp [resolve_base_cash, yamlGet, h1, h2, exceptBind_ok]
  · intro cash positions E ticker s h1 h2
    simp [build_ticker_portfolio, h1, yamlGet, h2, exceptBind_ok]
  · intro cash positions E ticker h1 h2
    simp [build_ticker_portfolio, h1, yamlGet, h2, exceptBind_ok]

/-- Witness for C8 at the spec's example config: positions
`{AAPL: {stock: 10}, MSFT: {}}` with `portfolio.cash: 50000` resolve to
AAPL → cash 50000, stock 10 and MSFT → cash 50000, stock 0. -/
theorem claim_c8_witness :
    resolve_base_cash (Yaml.map [("portfolio", Yaml.map [("cash", Yaml.num 50000)]),
      ("positions", Yaml.map [("AAPL", Yaml.map [("stock", Yaml.num 10)]),
        ("MSFT", Yaml.map [])])]) = .ok (Yaml.num 50000) ∧
    build_ticker_portfolio (Yaml.num 50000)
      [("AAPL", Yaml.map [("stock", Yaml.num 10)]), ("MSFT", Yaml.map [])] "AAPL" =
      .ok { cash := Yaml.num 50000, stock := Yaml.num 10 } ∧
    build_ticker_portfolio (Yaml.num 50000)
      [("AAPL", Yaml.map [("stock", Yaml.num 10)]), ("MSFT", Yaml.map [])] "MSFT" =
      .ok { cash := Yaml.num 50000, stock := Yaml.num 0 } :=
  ⟨claim_c8.1 _ _ _ rfl rfl, claim_c8.2.2.2.1 _ _ _ _ _ rfl rfl,
    claim_c8.2.2.2.2 _ _ _ _ rfl rfl⟩

end HedgeFund
